import Mathlib

/-!
Verification of the policy-gradient torch policy file
(rllib/agents/pg/pg_torch_policy.py).

The file defines two functions:

  - pg_torch_loss(policy, model, dist_class, train_batch):
      runs the model forward to obtain distribution parameters,
      builds the action distribution, computes the log-probabilities
      of the recorded actions, stores
      policy.pi_err = -torch.mean(log_probs * advantages)
      on the policy object, and returns that value;

  - pg_loss_stats(policy, train_batch):
      returns the dict containing the single key "policy_loss" bound to
      policy.pi_err.item(); reading the pi_err field of a policy on which
      it was never set raises an AttributeError.

We embed both as pure functions.  Since in Python both the policy object
and the training batch are passed by reference and could in principle be
mutated, the embedding returns, next to the result, the post-state of the
policy and of the batch, so that frame properties are statements of the
embedding rather than artifacts of purity.  Scalars are taken in an
arbitrary field (rationals for executable tests, reals for the scenario
with logarithms).
-/

namespace PGTorchPolicy

/-- One training batch: the recorded actions, the post-processed
advantages, and the remaining fields (observations, rewards, ...) which
this file never touches, kept abstractly as named columns. -/
structure SampleBatch (α : Type) where
  actions : List ℤ
  advantages : List α
  extra : List (String × List α)
deriving DecidableEq

/-- The policy object.  pi_err is the cached scalar written by
pg_torch_loss; it is absent (none) on a fresh policy.  All other mutable
state of the policy is abstracted into the field rest of type β. -/
structure Policy (α : Type) (β : Type) where
  pi_err : Option α
  rest : β
deriving DecidableEq

/-- An action distribution: exposes the log-probability operation used
by the loss, mapping the batch's recorded actions to their
log-probabilities. -/
structure ActionDist (α : Type) where
  logp : List ℤ → List α

/-- The model collaborator: from_batch maps a batch to the distribution
parameters (the first component of the pair returned in the source; the
second is discarded by this file). -/
structure Model (α : Type) where
  from_batch : SampleBatch α → List α

/-- The action-distribution class: constructs an ActionDist from the
distribution parameters and the model. -/
structure DistClass (α : Type) where
  mk_dist : List α → Model α → ActionDist α

/-- A Python-level error: the only one this file can itself produce is
the AttributeError raised when reading the unset pi_err field. -/
inductive PyErr where
  | attributeError (attr : String)
deriving DecidableEq

/-- torch.mean of a 1-D tensor: the sum of the entries divided by their
number. -/
def torch_mean {α : Type} [Field α] (l : List α) : α :=
  l.sum / (l.length : α)

/-- Elementwise product of two equally-shaped 1-D tensors
(torch's log_probs * advantages). -/
def tensor_mul {α : Type} [Field α] (xs ys : List α) : List α :=
  List.zipWith (fun x y => x * y) xs ys

/-- The loss function pg_torch_loss of the source file: obtain the
distribution inputs from the model, build the action distribution,
take the log-probabilities of the recorded actions, set
policy.pi_err := -torch.mean(log_probs * advantages) and return it.
The result is the returned scalar together with the post-state of the
policy and of the batch. -/
def pg_torch_loss {α : Type} [Field α] {β : Type}
    (policy : Policy α β) (model : Model α) (dist_class : DistClass α)
    (train_batch : SampleBatch α) : α × Policy α β × SampleBatch α :=
  let dist_inputs := model.from_batch train_batch
  let action_dist := dist_class.mk_dist dist_inputs model
  let log_probs := action_dist.logp train_batch.actions
  let pi_err := -torch_mean (tensor_mul log_probs train_batch.advantages)
  (pi_err, { policy with pi_err := some pi_err }, train_batch)

/-- The stats function pg_loss_stats of the source file: return the
one-entry dict binding "policy_loss" to policy.pi_err.item().  Reading
pi_err on a policy where it was never set raises AttributeError.  The
result again carries the post-state of the policy and of the batch. -/
def pg_loss_stats {α : Type} {β : Type}
    (policy : Policy α β) (train_batch : SampleBatch α) :
    Except PyErr (List (String × α)) × Policy α β × SampleBatch α :=
  match policy.pi_err with
  | none =>
      (Except.error (PyErr.attributeError "pi_err"), policy, train_batch)
  | some v => (Except.ok [("policy_loss", v)], policy, train_batch)

/-- Summing the elementwise product against an all-zero advantage vector
gives zero, whatever the log-probabilities are. -/
lemma tensor_mul_sum_zero {α : Type} [Field α] (xs gs : List α)
    (h : ∀ g ∈ gs, g = 0) : (tensor_mul xs gs).sum = 0 := by
  induction xs generalizing gs with
  | nil => simp [tensor_mul]
  | cons x xs ih =>
    cases gs with
    | nil => simp [tensor_mul]
    | cons g gs =>
      have hg : g = 0 := h g (List.mem_cons_self g gs)
      have hrest : ∀ g ∈ gs, g = 0 := fun g hgm => h g (List.mem_cons_of_mem _ hgm)
      simp only [tensor_mul, List.zipWith_cons_cons, List.sum_cons]
      rw [hg, mul_zero, zero_add]
      exact ih gs hrest

/-- Summing the elementwise product when every log-probability equals a
constant c and the two vectors have the same length gives c times the sum
of the advantages. -/
lemma tensor_mul_sum_const {α : Type} [Field α] (c : α) (xs gs : List α)
    (hc : ∀ x ∈ xs, x = c) (hlen : xs.length = gs.length) :
    (tensor_mul xs gs).sum = c * gs.sum := by
  induction xs generalizing gs with
  | nil =>
    cases gs with
    | nil => simp [tensor_mul]
    | cons g gs => simp at hlen
  | cons x xs ih =>
    cases gs with
    | nil => simp at hlen
    | cons g gs =>
      have hx : x = c := hc x (List.mem_cons_self x xs)
      have hrest : ∀ y ∈ xs, y = c := fun y hy => hc y (List.mem_cons_of_mem _ hy)
      have hlen2 : xs.length = gs.length := by simpa using hlen
      simp only [tensor_mul, List.zipWith_cons_cons, List.sum_cons]
      have ih2 : (List.zipWith (fun x y => x * y) xs gs).sum = c * gs.sum :=
        ih gs hrest hlen2
      rw [hx, ih2]
      ring

/-- C1: for a batch of size n whose recorded actions get log-probabilities
L under the action distribution built from the model's outputs, the loss
returned by pg_torch_loss is -(1/n) times the sum of the elementwise
products of log-probabilities and advantages. -/
theorem pg_torch_loss_is_neg_mean {α : Type} [Field α] {β : Type}
    (p : Policy α β) (m : Model α) (d : DistClass α) (b : SampleBatch α)
    (L : List α) (n : ℕ)
    (hL : (d.mk_dist (m.from_batch b) m).logp b.actions = L)
    (hn : b.advantages.length = n) (hlen : L.length = n) (hpos : 0 < n) :
    (pg_torch_loss p m d b).1
      = -(((1 : α) / (n : α)) * (tensor_mul L b.advantages).sum) := by
  have hfst : (pg_torch_loss p m d b).1
      = -torch_mean (tensor_mul
          ((d.mk_dist (m.from_batch b) m).logp b.actions) b.advantages) := rfl
  rw [hfst, hL]
  have hlen2 : (tensor_mul L b.advantages).length = n := by
    simp [tensor_mul, hlen, hn]
  unfold torch_mean
  rw [hlen2]
  ring

/-- Witness for C1 at a concrete rational batch. -/
theorem pg_torch_loss_is_neg_mean_witness :
    ((DistClass.mk_dist ⟨fun _ _ => ⟨fun as => as.map fun a => if a = 0 then -1 else -2⟩⟩
        (Model.from_batch ⟨fun _ => [3, 7]⟩ ⟨[0, 1], [1, -1], []⟩) ⟨fun _ => [3, 7]⟩).logp
        (SampleBatch.actions (α := ℚ) ⟨[0, 1], [1, -1], []⟩) = [-1, -2]
      ∧ (SampleBatch.advantages (α := ℚ) ⟨[0, 1], [1, -1], []⟩).length = 2
      ∧ ([(-1 : ℚ), -2]).length = 2 ∧ 0 < 2)
    ∧ (pg_torch_loss (β := Unit) ⟨none, ()⟩ ⟨fun _ => [3, 7]⟩
        ⟨fun _ _ => ⟨fun as => as.map fun a => if a = 0 then -1 else -2⟩⟩
        ⟨[0, 1], [1, -1], []⟩).1
      = -(((1 : ℚ) / (2 : ℕ)) * (tensor_mul [-1, -2]
          (SampleBatch.advantages (α := ℚ) ⟨[0, 1], [1, -1], []⟩)).sum) :=
  ⟨⟨by decide, by decide, by decide, by decide⟩,
    pg_torch_loss_is_neg_mean ⟨none, ()⟩ ⟨fun _ => [3, 7]⟩
      ⟨fun _ _ => ⟨fun as => as.map fun a => if a = 0 then -1 else -2⟩⟩
      ⟨[0, 1], [1, -1], []⟩ [-1, -2] 2 (by decide) (by decide) (by decide)
      (by decide)⟩

/-- C5: pg_torch_loss stores the computed scalar loss in the pi_err field
of the policy object, and the value it returns is exactly the stored
value. -/
theorem pg_torch_loss_caches_pi_err {α : Type} [Field α] {β : Type}
    (p : Policy α β) (m : Model α) (d : DistClass α) (b : SampleBatch α) :
    (pg_torch_loss p m d b).2.1.pi_err = some ((pg_torch_loss p m d b).1) :=
  rfl

/-- C2: on the policy produced by pg_torch_loss, pg_loss_stats returns the
one-entry mapping whose single value is exactly the loss pg_torch_loss
just computed and cached (exact equality, hence equality to any
floating-point tolerance). -/
theorem pg_loss_stats_after_loss {α : Type} [Field α] {β : Type}
    (p : Policy α β) (m : Model α) (d : DistClass α) (b b2 : SampleBatch α) :
    (pg_loss_stats (pg_torch_loss p m d b).2.1 b2).1
      = Except.ok [("policy_loss", (pg_torch_loss p m d b).1)] :=
  rfl

/-- C3: on a fresh policy, whose pi_err field was never set, pg_loss_stats
fails deterministically with the missing-attribute error for pi_err
instead of returning a stale or zero value. -/
theorem pg_loss_stats_fresh_fails {α : Type} {β : Type}
    (p : Policy α β) (b : SampleBatch α) (h : p.pi_err = none) :
    (pg_loss_stats p b).1
      = Except.error (PyErr.attributeError "pi_err") := by
  simp [pg_loss_stats, h]

/-- Witness for C3 on a concrete fresh rational policy. -/
theorem pg_loss_stats_fresh_fails_witness :
    (Policy.pi_err (α := ℚ) (β := Unit) ⟨none, ()⟩ = none)
    ∧ (pg_loss_stats (α := ℚ) (β := Unit) ⟨none, ()⟩ ⟨[0, 1], [1, -1], []⟩).1
        = Except.error (PyErr.attributeError "pi_err") :=
  ⟨rfl, pg_loss_stats_fresh_fails ⟨none, ()⟩ ⟨[0, 1], [1, -1], []⟩ rfl⟩

/-- C6: on a (nonempty) batch whose advantages are all zero, pg_torch_loss
returns zero, whatever log-probabilities the action distribution assigns
to the actions. -/
theorem pg_torch_loss_zero_advantages {α : Type} [Field α] {β : Type}
    (p : Policy α β) (m : Model α) (d : DistClass α) (b : SampleBatch α)
    (h : ∀ g ∈ b.advantages, g = 0) :
    (pg_torch_loss p m d b).1 = 0 := by
  have hfst : (pg_torch_loss p m d b).1
      = -torch_mean (tensor_mul
          ((d.mk_dist (m.from_batch b) m).logp b.actions) b.advantages) := rfl
  rw [hfst]
  unfold torch_mean
  rw [tensor_mul_sum_zero _ _ h]
  simp

/-- Witness for C6 on a concrete batch with zero advantages. -/
theorem pg_torch_loss_zero_advantages_witness :
    (∀ g ∈ SampleBatch.advantages (α := ℚ) ⟨[0, 1], [0, 0], []⟩, g = 0)
    ∧ (pg_torch_loss (α := ℚ) (β := Unit) ⟨none, ()⟩ ⟨fun _ => [3, 7]⟩
        ⟨fun _ _ => ⟨fun as => as.map fun a => if a = 0 then -1 else -2⟩⟩
        ⟨[0, 1], [0, 0], []⟩).1 = 0 :=
  ⟨by decide,
    pg_torch_loss_zero_advantages (α := ℚ) ⟨none, ()⟩ ⟨fun _ => [3, 7]⟩
      ⟨fun _ _ => ⟨fun as => as.map fun a => if a = 0 then -1 else -2⟩⟩
      ⟨[0, 1], [0, 0], []⟩ (by decide)⟩

/-- C7: if the log-probabilities of the recorded actions are all equal to
a constant c and the advantages of the n samples sum to S, pg_torch_loss
returns -c*S/n. -/
theorem pg_torch_loss_const_logp {α : Type} [Field α] {β : Type}
    (p : Policy α β) (m : Model α) (d : DistClass α) (b : SampleBatch α)
    (L : List α) (c S : α) (n : ℕ)
    (hL : (d.mk_dist (m.from_batch b) m).logp b.actions = L)
    (hc : ∀ x ∈ L, x = c) (hlen : L.length = n)
    (hn : b.advantages.length = n) (hS : b.advantages.sum = S)
    (hpos : 0 < n) :
    (pg_torch_loss p m d b).1 = -(c * S / (n : α)) := by
  have hfst : (pg_torch_loss p m d b).1
      = -torch_mean (tensor_mul
          ((d.mk_dist (m.from_batch b) m).logp b.actions) b.advantages) := rfl
  rw [hfst, hL]
  unfold torch_mean
  rw [tensor_mul_sum_const c L b.advantages hc (hlen.trans hn.symm)]
  have hlen2 : (tensor_mul L b.advantages).length = n := by
    simp [tensor_mul, hlen, hn]
  rw [hlen2, hS]

/-- Witness for C7 at a concrete rational batch with constant
log-probabilities. -/
theorem pg_torch_loss_const_logp_witness :
    ((DistClass.mk_dist ⟨fun _ _ => ⟨fun as => as.map fun _ => -3⟩⟩
        (Model.from_batch ⟨fun _ => [3, 7]⟩ ⟨[0, 1], [1, -1], []⟩) ⟨fun _ => [3, 7]⟩).logp
        (SampleBatch.actions (α := ℚ) ⟨[0, 1], [1, -1], []⟩) = [-3, -3]
      ∧ (∀ x ∈ [(-3 : ℚ), -3], x = -3) ∧ ([(-3 : ℚ), -3]).length = 2
      ∧ (SampleBatch.advantages (α := ℚ) ⟨[0, 1], [1, -1], []⟩).length = 2
      ∧ (SampleBatch.advantages (α := ℚ) ⟨[0, 1], [1, -1], []⟩).sum = 0
      ∧ 0 < 2)
    ∧ (pg_torch_loss (α := ℚ) (β := Unit) ⟨none, ()⟩ ⟨fun _ => [3, 7]⟩
        ⟨fun _ _ => ⟨fun as => as.map fun _ => -3⟩⟩
        ⟨[0, 1], [1, -1], []⟩).1 = -((-3 : ℚ) * 0 / (2 : ℕ)) :=
  ⟨⟨by decide, by decide, by decide, by decide, by simp, by decide⟩,
    pg_torch_loss_const_logp (α := ℚ) ⟨none, ()⟩ ⟨fun _ => [3, 7]⟩
      ⟨fun _ _ => ⟨fun as => as.map fun _ => -3⟩⟩
      ⟨[0, 1], [1, -1], []⟩ [-3, -3] (-3) 0 2 (by decide) (by decide)
      (by decide) (by decide) (by simp) (by decide)⟩

/-- C8: the only policy state the two functions write is the cached
scalar pi_err: pg_torch_loss leaves every other field of the policy (its
abstracted rest) unchanged, and pg_loss_stats leaves the whole policy
unchanged. -/
theorem policy_frame {α : Type} [Field α] {β : Type}
    (p : Policy α β) (m : Model α) (d : DistClass α) (b b2 : SampleBatch α) :
    (pg_torch_loss p m d b).2.1.rest = p.rest
      ∧ (pg_loss_stats p b2).2.1 = p := by
  refine ⟨rfl, ?_⟩
  unfold pg_loss_stats
  cases p.pi_err <;> rfl

/-- C9: neither pg_torch_loss nor pg_loss_stats modifies the training
batch: the post-state of the batch equals the input batch, every field
included. -/
theorem train_batch_frame {α : Type} [Field α] {β : Type}
    (p : Policy α β) (m : Model α) (d : DistClass α) (b b2 : SampleBatch α) :
    (pg_torch_loss p m d b).2.2 = b ∧ (pg_loss_stats p b2).2.2 = b2 := by
  refine ⟨rfl, ?_⟩
  unfold pg_loss_stats
  cases p.pi_err <;> rfl

/-- C10: pg_loss_stats does not depend on its train_batch argument: for a
policy with pi_err set, any two batches yield the same stats mapping. -/
theorem pg_loss_stats_batch_independent {α : Type} {β : Type}
    (p : Policy α β) (v : α) (b1 b2 : SampleBatch α)
    (h : p.pi_err = some v) :
    (pg_loss_stats p b1).1 = (pg_loss_stats p b2).1 := by
  simp [pg_loss_stats, h]

/-- Witness for C10 on a concrete policy with a cached loss and two
distinct batches. -/
theorem pg_loss_stats_batch_independent_witness :
    (Policy.pi_err (α := ℚ) (β := Unit) ⟨some 5, ()⟩ = some 5)
    ∧ (pg_loss_stats (α := ℚ) (β := Unit) ⟨some 5, ()⟩ ⟨[0, 1], [1, -1], []⟩).1
        = (pg_loss_stats (α := ℚ) (β := Unit) ⟨some 5, ()⟩ ⟨[2], [7], []⟩).1 :=
  ⟨rfl, pg_loss_stats_batch_independent ⟨some 5, ()⟩ 5
    ⟨[0, 1], [1, -1], []⟩ ⟨[2], [7], []⟩ rfl⟩

/-- C4: on the batch with actions [0, 1] and advantages [1, -1], under a
distribution assigning log-probabilities ln(1/2) and ln(1/4) to those
actions, pg_torch_loss returns -(1*ln(1/2) + (-1)*ln(1/4))/2, which lies
within 0.001 of -0.347. -/
theorem pg_torch_loss_scenario :
    (pg_torch_loss (α := ℝ) (β := Unit) ⟨none, ()⟩ ⟨fun _ => []⟩
        ⟨fun _ _ => ⟨fun _ => [Real.log (1/2), Real.log (1/4)]⟩⟩
        ⟨[0, 1], [1, -1], []⟩).1
      = -(1 * Real.log (1/2) + (-1) * Real.log (1/4)) / 2
    ∧ |(pg_torch_loss (α := ℝ) (β := Unit) ⟨none, ()⟩ ⟨fun _ => []⟩
        ⟨fun _ _ => ⟨fun _ => [Real.log (1/2), Real.log (1/4)]⟩⟩
        ⟨[0, 1], [1, -1], []⟩).1 - (-0.347)| < 0.001 := by
  have hval : (pg_torch_loss (α := ℝ) (β := Unit) ⟨none, ()⟩ ⟨fun _ => []⟩
        ⟨fun _ _ => ⟨fun _ => [Real.log (1/2), Real.log (1/4)]⟩⟩
        ⟨[0, 1], [1, -1], []⟩).1
      = -(1 * Real.log (1/2) + (-1) * Real.log (1/4)) / 2 := by
    show -torch_mean (tensor_mul [Real.log (1/2), Real.log (1/4)] [1, -1])
        = -(1 * Real.log (1/2) + (-1) * Real.log (1/4)) / 2
    simp only [tensor_mul, List.zipWith_cons_cons, List.zipWith_nil_right,
      torch_mean, List.sum_cons, List.sum_nil, List.length_cons,
      List.length_nil]
    push_cast
    ring
  refine ⟨hval, ?_⟩
  rw [hval]
  have h2 : Real.log (1/2) = -Real.log 2 := by
    rw [one_div, Real.log_inv]
  have h4 : Real.log (1/4) = -(2 * Real.log 2) := by
    rw [one_div, Real.log_inv, show (4 : ℝ) = 2 ^ 2 by norm_num,
      Real.log_pow]
    push_cast
    ring
  rw [h2, h4]
  have hlo := Real.log_two_gt_d9
  have hhi := Real.log_two_lt_d9
  rw [abs_lt]
  constructor <;> nlinarith

end PGTorchPolicy
